import Mathlib

/-!
Verification of the uthread synchronization core (`user/parlib/mutex.c`).

Shallow embedding conventions:
* Threads are identified by `Nat` handles.
* A wait queue (`uth_sync_t` with the default FIFO implementation, a
  `uth_tailq`) is a `List Nat`; the head of the list is the head of the tailq.
* Every region executed under a primitive's `spin_pdr_lock` is modelled as one
  atomic state transformer; the spin lock itself therefore does not appear in
  the state.
* The `once_ctl` lazy-initialization flag is modelled as the Bool `once_ran`;
  `parlib_run_once` runs the init function iff the flag is still unset.
* Waking a thread (`uthread_runnable`) is modelled by returning the handle (or
  list of handles) of the woken thread(s) alongside the new primitive state.
* The 2LS hooks (`sched_ops->sync_*`) are taken to be absent, so every
  `__uth_sync_*` dispatcher resolves to the default FIFO implementation at the
  bottom of `mutex.c`.
-/

/-! ### Default sync-object (FIFO wait queue) implementation -/

/-- `uth_default_sync_enqueue`: `TAILQ_INSERT_TAIL(tq, uth, sync_next)`. -/
def uth_default_sync_enqueue (uth : Nat) (q : List Nat) : List Nat :=
  q ++ [uth]

/-- `uth_default_sync_get_next`: take `TAILQ_FIRST`, remove it if present, and
return it.  Returns the popped thread (or `none`) and the remaining queue. -/
def uth_default_sync_get_next (q : List Nat) : Option Nat × List Nat :=
  match q with
  | [] => (none, [])
  | first :: rest => (some first, rest)

/-- `uth_default_sync_get_uth`: walk the queue; if `uth` is found, remove it
and return `true`, else return `false`.  Returns the flag and the new queue. -/
def uth_default_sync_get_uth (q : List Nat) (uth : Nat) : Bool × List Nat :=
  match q with
  | [] => (false, [])
  | i :: rest =>
    if i = uth then
      (true, rest)
    else
      let p := uth_default_sync_get_uth rest uth
      (p.1, i :: p.2)

/-- `uth_default_sync_swap`: `TAILQ_SWAP` exchanges the members of the two
queues. -/
def uth_default_sync_swap (a b : List Nat) : List Nat × List Nat :=
  (b, a)

/-- `uth_default_sync_is_empty`: `TAILQ_EMPTY`. -/
def uth_default_sync_is_empty (q : List Nat) : Bool :=
  q.isEmpty

/-- `__uth_sync_wake_all` (with no `thread_bulk_runnable` hook): repeatedly
`__uth_sync_get_next` and wake each popped thread.  Returns the threads woken,
in wake order. -/
def __uth_sync_wake_all (wakees : List Nat) : List Nat :=
  match wakees with
  | [] => []
  | uth_i :: rest => uth_i :: __uth_sync_wake_all rest

/-! ### Semaphores and mutexes -/

/-- `struct uth_semaphore`: spinlock (implicit), `count`, `sync_obj`, and the
`once_ctl` modelled as `once_ran`.  A `uth_mutex_t` is the same struct. -/
structure uth_semaphore where
  count : Nat
  sync_obj : List Nat
  once_ran : Bool
deriving DecidableEq, Repr

/-- `__uth_semaphore_init`: init the spinlock and the sync object.  `count` is
deliberately not touched (it is set statically or by the caller). -/
def __uth_semaphore_init (sem : uth_semaphore) : uth_semaphore :=
  { sem with sync_obj := [] }

/-- `parlib_run_once(&sem->once_ctl, __uth_semaphore_init, sem)`. -/
def sem_run_once (sem : uth_semaphore) : uth_semaphore :=
  if sem.once_ran then sem else { __uth_semaphore_init sem with once_ran := true }

/-- `uth_semaphore_init`: run the init, set `count`, mark the once-control. -/
def uth_semaphore_init (count : Nat) : uth_semaphore :=
  { count := count, sync_obj := [], once_ran := true }

/-- `uth_semaphore_up`: under the lock, pop the next waiter; if there was one,
pass the count to it (do not increment) and wake it after unlocking, else
increment `count`. -/
def uth_semaphore_up (sem : uth_semaphore) : uth_semaphore × Option Nat :=
  let sem := sem_run_once sem
  match uth_default_sync_get_next sem.sync_obj with
  | (some uth, q) => ({ sem with sync_obj := q }, some uth)
  | (none, _) => ({ sem with count := sem.count + 1 }, none)

/-- `uth_semaphore_trydown`: under the lock, decrement iff `count > 0`; return
whether it did. -/
def uth_semaphore_trydown (sem : uth_semaphore) : uth_semaphore × Bool :=
  let sem := sem_run_once sem
  if sem.count > 0 then ({ sem with count := sem.count - 1 }, true)
  else (sem, false)

/-- `uth_semaphore_timed_down`, from the calling thread's point of view, with
every other actor's interference left to the step relations below.  If
`count > 0` the fast path decrements and returns `TRUE`.  Otherwise the caller
enqueues itself and yields; `timeoutFires = true` means the armed alarm fired
and removed the caller from the queue (net queue unchanged), so the call
returns `FALSE`; with no (or an unfired) timeout the call does not return on
its own, modelled as `none`. -/
def uth_semaphore_timed_down (sem : uth_semaphore) (timeoutFires : Bool) :
    Option (uth_semaphore × Bool) :=
  let sem := sem_run_once sem
  if sem.count > 0 then some ({ sem with count := sem.count - 1 }, true)
  else if timeoutFires then some (sem, false)
  else none

/-- `__uth_mutex_init`: semaphore init, then `count = 1`. -/
def __uth_mutex_init (mtx : uth_semaphore) : uth_semaphore :=
  { __uth_semaphore_init mtx with count := 1 }

/-- `parlib_run_once(&mtx->once_ctl, __uth_mutex_init, mtx)`. -/
def mtx_run_once (mtx : uth_semaphore) : uth_semaphore :=
  if mtx.once_ran then mtx else { __uth_mutex_init mtx with once_ran := true }

/-- `uth_mutex_init`: a mutex is a semaphore with `count == 1`. -/
def uth_mutex_init : uth_semaphore :=
  { count := 1, sync_obj := [], once_ran := true }

/-- `uth_mutex_timed_lock`: once-init as a mutex, then semaphore timed down. -/
def uth_mutex_timed_lock (mtx : uth_semaphore) (timeoutFires : Bool) :
    Option (uth_semaphore × Bool) :=
  uth_semaphore_timed_down (mtx_run_once mtx) timeoutFires

/-- `uth_mutex_trylock`: once-init as a mutex, then semaphore trydown. -/
def uth_mutex_trylock (mtx : uth_semaphore) : uth_semaphore × Bool :=
  uth_semaphore_trydown (mtx_run_once mtx)

/-- `uth_mutex_unlock` is exactly `uth_semaphore_up`. -/
def uth_mutex_unlock (mtx : uth_semaphore) : uth_semaphore × Option Nat :=
  uth_semaphore_up mtx

/-! ### C1: semaphore up -/

/-- C1: `uth_semaphore_up(s)` pops the next thread from `s`'s wait queue under
`s`'s spinlock; if a thread was popped, `s.count` is not incremented and that
thread is the one made runnable after the lock is released; if no thread was
popped, `s.count` is incremented by exactly one and no thread is woken. -/
theorem C1_semaphore_up_spec (sem : uth_semaphore) (h : sem.once_ran = true) :
    (sem.sync_obj = [] →
      uth_semaphore_up sem = ({ sem with count := sem.count + 1 }, none)) ∧
    (∀ u rest, sem.sync_obj = u :: rest →
      uth_semaphore_up sem = ({ sem with sync_obj := rest }, some u)) := by
  have hro : sem_run_once sem = sem := by
    simp [sem_run_once, h]
  constructor
  · intro hq
    simp [uth_semaphore_up, hro, hq, uth_default_sync_get_next]
  · intro u rest hq
    simp [uth_semaphore_up, hro, hq, uth_default_sync_get_next]

/-- C1 witness: a semaphore with one queued waiter hands the unit straight to
that waiter, and an empty-queue semaphore just bumps the count. -/
theorem C1_semaphore_up_spec_witness :
    (uth_semaphore.mk 0 [7] true).once_ran = true ∧
    uth_semaphore_up ⟨0, [7], true⟩ = (⟨0, [], true⟩, some 7) ∧
    uth_semaphore_up ⟨2, [], true⟩ = (⟨3, [], true⟩, none) := by
  refine ⟨rfl, ?_, ?_⟩
  · exact (C1_semaphore_up_spec ⟨0, [7], true⟩ rfl).2 7 [] rfl
  · exact (C1_semaphore_up_spec ⟨2, [], true⟩ rfl).1 rfl

/-! ### C2: semaphore invariant over all operation sequences -/

/-- One atomic (spinlocked) state change of a semaphore, by any caller.  The
constructors cover the fast path of `uth_semaphore_timed_down` (`count > 0`),
the enqueue-and-yield path (`count == 0`, the yield callback enqueues the
caller), `uth_semaphore_trydown`, `uth_semaphore_up`, and the alarm handler of
a timed down removing thread `t` from the queue. -/
inductive sem_step : uth_semaphore → uth_semaphore → Prop
  | timed_down_fast (s : uth_semaphore) : 0 < s.count →
      sem_step s { s with count := s.count - 1 }
  | timed_down_block (s : uth_semaphore) (t : Nat) : s.count = 0 →
      sem_step s { s with sync_obj := uth_default_sync_enqueue t s.sync_obj }
  | trydown (s : uth_semaphore) :
      sem_step s (uth_semaphore_trydown s).1
  | up (s : uth_semaphore) :
      sem_step s (uth_semaphore_up s).1
  | timeout (s : uth_semaphore) (t : Nat) :
      sem_step s { s with sync_obj := (uth_default_sync_get_uth s.sync_obj t).2 }

/-- The quiescent-point semaphore invariant. -/
def sem_inv (s : uth_semaphore) : Prop :=
  0 ≤ s.count ∧ (0 < s.count → s.sync_obj = [])

theorem sem_inv_run_once {s : uth_semaphore} (hi : sem_inv s) :
    sem_inv (sem_run_once s) := by
  unfold sem_run_once
  split
  · exact hi
  · exact ⟨Nat.zero_le _, fun _ => rfl⟩

theorem uth_semaphore_trydown_pos {s : uth_semaphore}
    (h : 0 < (sem_run_once s).count) :
    uth_semaphore_trydown s =
      ({ sem_run_once s with count := (sem_run_once s).count - 1 }, true) := by
  simp [uth_semaphore_trydown, h]

theorem uth_semaphore_trydown_zero {s : uth_semaphore}
    (h : ¬ 0 < (sem_run_once s).count) :
    uth_semaphore_trydown s = (sem_run_once s, false) := by
  simp [uth_semaphore_trydown, h]

theorem uth_semaphore_up_nil {s : uth_semaphore}
    (h : (sem_run_once s).sync_obj = []) :
    uth_semaphore_up s =
      ({ sem_run_once s with count := (sem_run_once s).count + 1 }, none) := by
  simp [uth_semaphore_up, h, uth_default_sync_get_next]

theorem uth_semaphore_up_cons {s : uth_semaphore} {u : Nat} {rest : List Nat}
    (h : (sem_run_once s).sync_obj = u :: rest) :
    uth_semaphore_up s =
      ({ sem_run_once s with sync_obj := rest }, some u) := by
  simp [uth_semaphore_up, h, uth_default_sync_get_next]

theorem sem_inv_step {s s' : uth_semaphore} (hs : sem_step s s')
    (hi : sem_inv s) : sem_inv s' := by
  obtain ⟨-, h2⟩ := hi
  cases hs with
  | timed_down_fast hc =>
    exact ⟨Nat.zero_le _, fun _ => h2 hc⟩
  | timed_down_block t hc =>
    exact ⟨Nat.zero_le _, fun hpos => by simp [hc] at hpos⟩
  | trydown =>
    obtain ⟨-, hr2⟩ := sem_inv_run_once (s := s) ⟨Nat.zero_le _, h2⟩
    by_cases hc : 0 < (sem_run_once s).count
    · rw [uth_semaphore_trydown_pos hc]
      exact ⟨Nat.zero_le _, fun _ => hr2 hc⟩
    · rw [uth_semaphore_trydown_zero hc]
      exact ⟨Nat.zero_le _, hr2⟩
  | up =>
    obtain ⟨-, hr2⟩ := sem_inv_run_once (s := s) ⟨Nat.zero_le _, h2⟩
    rcases hq : (sem_run_once s).sync_obj with _ | ⟨u, rest⟩
    · rw [uth_semaphore_up_nil hq]
      exact ⟨Nat.zero_le _, fun _ => hq⟩
    · rw [uth_semaphore_up_cons hq]
      refine ⟨Nat.zero_le _, fun hpos => ?_⟩
      have hnil := hr2 hpos
      rw [hq] at hnil
      exact absurd hnil (List.cons_ne_nil u rest)
  | timeout t =>
    refine ⟨Nat.zero_le _, fun hpos => ?_⟩
    have hnil := h2 hpos
    show (uth_default_sync_get_uth s.sync_obj t).2 = []
    rw [hnil]
    rfl

/-- C2: every semaphore state reachable from `uth_semaphore_init count` by any
sequence of down / trydown / timed-down / up operations satisfies `count ≥ 0`
and `count > 0 → the wait queue is empty`. -/
theorem C2_semaphore_invariant (count : Nat) (s : uth_semaphore)
    (h : Relation.ReflTransGen sem_step (uth_semaphore_init count) s) :
    0 ≤ s.count ∧ (0 < s.count → s.sync_obj = []) := by
  have : sem_inv s := by
    induction h with
    | refl => exact ⟨Nat.zero_le _, fun _ => rfl⟩
    | tail hab hbc ih => exact sem_inv_step hbc ih
  exact this

/-- C2 witness: a concrete four-operation history (block, up-handoff, up,
trydown) starting from a semaphore initialized with no units. -/
theorem C2_semaphore_invariant_witness :
    Relation.ReflTransGen sem_step (uth_semaphore_init 0) ⟨0, [], true⟩ ∧
    (0 ≤ (uth_semaphore.mk 0 [] true).count ∧
      (0 < (uth_semaphore.mk 0 [] true).count →
        (uth_semaphore.mk 0 [] true).sync_obj = [])) := by
  have h1 : sem_step (uth_semaphore_init 0) ⟨0, [4], true⟩ := by
    have := sem_step.timed_down_block (uth_semaphore_init 0) 4 rfl
    simpa [uth_semaphore_init, uth_default_sync_enqueue] using this
  have h2 : sem_step (uth_semaphore.mk 0 [4] true) ⟨0, [], true⟩ := by
    have := sem_step.up ⟨0, [4], true⟩
    simpa [uth_semaphore_up, sem_run_once, uth_default_sync_get_next] using this
  have hchain : Relation.ReflTransGen sem_step (uth_semaphore_init 0) ⟨0, [], true⟩ :=
    Relation.ReflTransGen.tail (Relation.ReflTransGen.single h1) h2
  exact ⟨hchain, C2_semaphore_invariant 0 _ hchain⟩

/-! ### Condition variables -/

/-- `struct uth_cond_var`: spinlock (implicit), `sync_obj`, once-control. -/
structure uth_cond_var where
  sync_obj : List Nat
  once_ran : Bool
deriving DecidableEq, Repr

/-- `__uth_cond_var_init`: init the spinlock and the sync object. -/
def __uth_cond_var_init (cv : uth_cond_var) : uth_cond_var :=
  { cv with sync_obj := [] }

/-- `parlib_run_once(&cv->once_ctl, __uth_cond_var_init, cv)`. -/
def cv_run_once (cv : uth_cond_var) : uth_cond_var :=
  if cv.once_ran then cv else { __uth_cond_var_init cv with once_ran := true }

/-- `uth_cond_var_init`. -/
def uth_cond_var_init : uth_cond_var :=
  { sync_obj := [], once_ran := true }

/-- `uth_cond_var_signal`: under the cv spinlock, pop the next waiter; after
unlocking, wake it if there was one. -/
def uth_cond_var_signal (cv : uth_cond_var) : uth_cond_var × Option Nat :=
  let cv := cv_run_once cv
  let p := uth_default_sync_get_next cv.sync_obj
  ({ cv with sync_obj := p.2 }, p.1)

/-- `uth_cond_var_broadcast`: under the cv spinlock, return if the queue is
empty; otherwise swap the queue with a fresh local one, unlock, and wake every
member of the local queue. -/
def uth_cond_var_broadcast (cv : uth_cond_var) : uth_cond_var × List Nat :=
  let cv := cv_run_once cv
  if uth_default_sync_is_empty cv.sync_obj then
    (cv, [])
  else
    let restartees : List Nat := []
    let p := uth_default_sync_swap restartees cv.sync_obj
    ({ cv with sync_obj := p.2 }, __uth_sync_wake_all p.1)

theorem wake_all_eq (l : List Nat) : __uth_sync_wake_all l = l := by
  induction l with
  | nil => rfl
  | cons u rest ih => simp [__uth_sync_wake_all, ih]

/-! ### C6: broadcast -/

/-- C6: `uth_cond_var_broadcast(cv)` with an empty wait queue changes no state
and wakes no thread; with a non-empty queue it empties the queue by an atomic
swap under the spinlock and wakes exactly the threads that were in the queue
at the swap, in queue order. -/
theorem C6_cond_var_broadcast_spec (cv : uth_cond_var) (h : cv.once_ran = true) :
    (cv.sync_obj = [] → uth_cond_var_broadcast cv = (cv, [])) ∧
    (cv.sync_obj ≠ [] →
      (uth_cond_var_broadcast cv).1 = { cv with sync_obj := [] } ∧
      (uth_cond_var_broadcast cv).2 = cv.sync_obj) := by
  have hro : cv_run_once cv = cv := by
    simp [cv_run_once, h]
  constructor
  · intro hq
    simp [uth_cond_var_broadcast, hro, hq, uth_default_sync_is_empty]
  · intro hq
    have hne : cv.sync_obj.isEmpty = false := by
      simpa [List.isEmpty_iff] using hq
    constructor
    · simp [uth_cond_var_broadcast, hro, uth_default_sync_is_empty, hne,
        uth_default_sync_swap]
    · simp [uth_cond_var_broadcast, hro, uth_default_sync_is_empty, hne,
        uth_default_sync_swap, wake_all_eq]

/-- C6 witness: broadcast on an initialized empty cv is a no-op; broadcast on
a cv holding threads 3 and 9 empties the queue and wakes exactly 3 then 9. -/
theorem C6_cond_var_broadcast_spec_witness :
    (uth_cond_var.mk [] true).once_ran = true ∧
    uth_cond_var_broadcast ⟨[], true⟩ = (⟨[], true⟩, []) ∧
    (uth_cond_var_broadcast ⟨[3, 9], true⟩).1 = ⟨[], true⟩ ∧
    (uth_cond_var_broadcast ⟨[3, 9], true⟩).2 = [3, 9] := by
  refine ⟨rfl, ?_, ?_, ?_⟩
  · exact (C6_cond_var_broadcast_spec ⟨[], true⟩ rfl).1 rfl
  · exact ((C6_cond_var_broadcast_spec ⟨[3, 9], true⟩ rfl).2 (by simp)).1
  · exact ((C6_cond_var_broadcast_spec ⟨[3, 9], true⟩ rfl).2 (by simp)).2

/-! ### C10: signal on an empty cv -/

/-- C10: for an initialized cv whose wait queue is empty,
`uth_cond_var_signal(cv)` wakes no thread and leaves the entire cv state
(queue and once-control included) unchanged. -/
theorem C10_cond_var_signal_empty (cv : uth_cond_var)
    (h1 : cv.once_ran = true) (h2 : cv.sync_obj = []) :
    uth_cond_var_signal cv = (cv, none) := by
  obtain ⟨q, o⟩ := cv
  simp only at h1 h2
  subst h1 h2
  rfl

/-- C10 witness: signalling a concrete initialized empty cv. -/
theorem C10_cond_var_signal_empty_witness :
    (uth_cond_var.mk [] true).once_ran = true ∧
    (uth_cond_var.mk [] true).sync_obj = [] ∧
    uth_cond_var_signal ⟨[], true⟩ = (⟨[], true⟩, none) :=
  ⟨rfl, rfl, C10_cond_var_signal_empty ⟨[], true⟩ rfl rfl⟩

/-! ### C7: the timeout alarm handler -/

theorem get_uth_fst_iff (q : List Nat) (u : Nat) :
    (uth_default_sync_get_uth q u).1 = true ↔ u ∈ q := by
  induction q with
  | nil => simp [uth_default_sync_get_uth]
  | cons i rest ih =>
    by_cases hi : i = u
    · simp [uth_default_sync_get_uth, hi]
    · simp [uth_default_sync_get_uth, hi, ih, Ne.symm hi]

theorem get_uth_not_mem {q : List Nat} {u : Nat} (h : u ∉ q) :
    uth_default_sync_get_uth q u = (false, q) := by
  induction q with
  | nil => rfl
  | cons i rest ih =>
    rw [List.mem_cons, not_or] at h
    have hi : ¬ i = u := fun hiu => h.1 hiu.symm
    simp [uth_default_sync_get_uth, hi, ih h.2]

theorem get_uth_snd_erase (q : List Nat) (u : Nat) :
    (uth_default_sync_get_uth q u).2 = q.erase u := by
  induction q with
  | nil => rfl
  | cons i rest ih =>
    by_cases hi : i = u
    · simp [uth_default_sync_get_uth, hi, List.erase_cons_head]
    · simp [uth_default_sync_get_uth, hi, ih, List.erase_cons_tail,
        (by simpa using hi : ¬ (i == u) = true)]

/-- `struct timeout_blob` (the queue and lock pointers are passed alongside
rather than stored, since the embedding has no addresses). -/
structure timeout_blob where
  timed_out : Bool
  uth : Nat
deriving DecidableEq, Repr

/-- `timeout_handler`: under the blob's lock, `__uth_sync_get_uth` the blob's
thread out of the blob's queue, setting `timed_out` iff it was still there;
after unlocking, make the thread runnable iff `timed_out` was set.  Returns
the new blob, the new queue, and the woken thread if any. -/
def timeout_handler (blob : timeout_blob) (q : List Nat) :
    timeout_blob × List Nat × Option Nat :=
  let p := uth_default_sync_get_uth q blob.uth
  let blob := if p.1 then { blob with timed_out := true } else blob
  (blob, p.2, if blob.timed_out then some blob.uth else none)

/-- C7: starting from a freshly set blob (`timed_out = false`, as
`set_timeout_blob` leaves it), the handler sets `timed_out` iff the thread was
still queued, removes exactly the thread's (first) queue entry, and wakes the
thread iff `timed_out` was set; a waiter already popped by a waker is neither
marked timed out nor woken, and the queue is left untouched. -/
theorem C7_timeout_handler_spec (blob : timeout_blob) (q : List Nat)
    (h : blob.timed_out = false) :
    ((timeout_handler blob q).1.timed_out = true ↔ blob.uth ∈ q) ∧
    (timeout_handler blob q).2.1 = q.erase blob.uth ∧
    ((timeout_handler blob q).2.2 = some blob.uth ↔ blob.uth ∈ q) ∧
    (blob.uth ∉ q → timeout_handler blob q = (blob, q, none)) := by
  by_cases hm : blob.uth ∈ q
  · have hf : (uth_default_sync_get_uth q blob.uth).1 = true :=
      (get_uth_fst_iff q blob.uth).2 hm
    refine ⟨?_, ?_, ?_, fun hn => absurd hm hn⟩
    · simp [timeout_handler, hf, hm]
    · simp [timeout_handler, get_uth_snd_erase]
    · simp [timeout_handler, hf, hm]
  · have hq := get_uth_not_mem hm
    refine ⟨?_, ?_, ?_, fun _ => ?_⟩
    · simp [timeout_handler, hq, h, hm]
    · simp [timeout_handler, get_uth_snd_erase]
    · simp [timeout_handler, hq, h, hm]
    · simp [timeout_handler, hq, h]

/-- C7 witness: thread 5 still queued gets removed, marked timed out and
woken; thread 6 already popped leaves everything untouched. -/
theorem C7_timeout_handler_spec_witness :
    (timeout_blob.mk false 5).timed_out = false ∧
    ((timeout_handler ⟨false, 5⟩ [4, 5]).1.timed_out = true ↔ 5 ∈ [4, 5]) ∧
    (timeout_handler ⟨false, 5⟩ [4, 5]).2.1 = [4, 5].erase 5 ∧
    (6 ∉ [4, 5] → timeout_handler ⟨false, 6⟩ [4, 5] = (⟨false, 6⟩, [4, 5], none)) := by
  refine ⟨rfl, ?_, ?_, ?_⟩
  · exact (C7_timeout_handler_spec ⟨false, 5⟩ [4, 5] rfl).1
  · exact (C7_timeout_handler_spec ⟨false, 5⟩ [4, 5] rfl).2.1
  · exact (C7_timeout_handler_spec ⟨false, 6⟩ [4, 5] rfl).2.2.2

/-! ### Reader-writer locks -/

/-- `struct uth_rwlock`: spinlock (implicit), `nr_readers`, `has_writer`, the
`readers` and `writers` wait queues, once-control. -/
structure uth_rwlock where
  nr_readers : Nat
  has_writer : Bool
  readers : List Nat
  writers : List Nat
  once_ran : Bool
deriving DecidableEq, Repr

/-- `__uth_rwlock_init`. -/
def __uth_rwlock_init (rwl : uth_rwlock) : uth_rwlock :=
  { rwl with nr_readers := 0, has_writer := false, readers := [], writers := [] }

/-- `parlib_run_once(&rwl->once_ctl, __uth_rwlock_init, rwl)`. -/
def rw_run_once (rwl : uth_rwlock) : uth_rwlock :=
  if rwl.once_ran then rwl else { __uth_rwlock_init rwl with once_ran := true }

/-- `uth_rwlock_init`. -/
def uth_rwlock_init : uth_rwlock :=
  { nr_readers := 0, has_writer := false, readers := [], writers := [],
    once_ran := true }

/-- `uth_rwlock_try_rdlock`: under the lock, take a reader slot iff there is
no writer. -/
def uth_rwlock_try_rdlock (rwl : uth_rwlock) : uth_rwlock × Bool :=
  let rwl := rw_run_once rwl
  if rwl.has_writer then (rwl, false)
  else ({ rwl with nr_readers := rwl.nr_readers + 1 }, true)

/-- `uth_rwlock_try_wrlock`: under the lock, take the writer slot iff there is
no writer and no readers. -/
def uth_rwlock_try_wrlock (rwl : uth_rwlock) : uth_rwlock × Bool :=
  let rwl := rw_run_once rwl
  if ¬ rwl.has_writer ∧ rwl.nr_readers = 0 then
    ({ rwl with has_writer := true }, true)
  else (rwl, false)

/-- The reader-drain loop of `__rw_unlock_writer`:
`while ((uth = __uth_sync_get_next(&rwl->readers)))` insert `uth` at the tail
of `restartees` and increment `nr_readers`.  Since the default `get_next` pops
the list head, the loop is structural recursion on the queue.  Returns the
final readers queue, `nr_readers`, and restartees. -/
def rw_drain_readers (readers : List Nat) (nr_readers : Nat)
    (restartees : List Nat) : List Nat × Nat × List Nat :=
  match readers with
  | [] => ([], nr_readers, restartees)
  | uth :: rest => rw_drain_readers rest (nr_readers + 1) (restartees ++ [uth])

/-- `__rw_unlock_writer`: pop the next writer; if there is one it goes on the
restart list and keeps `has_writer` set (ownership transfer); otherwise clear
`has_writer` and drain the whole reader queue onto the restart list,
incrementing `nr_readers` once per reader. -/
def __rw_unlock_writer (rwl : uth_rwlock) (restartees : List Nat) :
    uth_rwlock × List Nat :=
  match uth_default_sync_get_next rwl.writers with
  | (some uth, q) => ({ rwl with writers := q }, restartees ++ [uth])
  | (none, _) =>
    let rwl := { rwl with has_writer := false }
    let p := rw_drain_readers rwl.readers rwl.nr_readers restartees
    ({ rwl with readers := p.1, nr_readers := p.2.1 }, p.2.2)

/-- `__rw_unlock_reader`: drop a reader; if it was the last one, promote the
next queued writer, if any. -/
def __rw_unlock_reader (rwl : uth_rwlock) (restartees : List Nat) :
    uth_rwlock × List Nat :=
  let rwl := { rwl with nr_readers := rwl.nr_readers - 1 }
  if rwl.nr_readers = 0 then
    match uth_default_sync_get_next rwl.writers with
    | (some uth, q) =>
      ({ rwl with writers := q, has_writer := true }, restartees ++ [uth])
    | (none, _) => (rwl, restartees)
  else (rwl, restartees)

/-- `uth_rwlock_unlock`: one entry point for both sides, distinguished by
`has_writer`; after the spinlock is released every restartee is made runnable
in list order. -/
def uth_rwlock_unlock (rwl : uth_rwlock) : uth_rwlock × List Nat :=
  let restartees : List Nat := []
  if rwl.has_writer then __rw_unlock_writer rwl restartees
  else __rw_unlock_reader rwl restartees

theorem rw_drain_readers_eq (readers : List Nat) (nr_readers : Nat)
    (restartees : List Nat) :
    rw_drain_readers readers nr_readers restartees =
      ([], nr_readers + readers.length, restartees ++ readers) := by
  induction readers generalizing nr_readers restartees with
  | nil => simp [rw_drain_readers]
  | cons uth rest ih =>
    rw [rw_drain_readers, ih]
    simp only [Prod.mk.injEq, List.length_cons]
    refine ⟨trivial, by omega, by simp⟩

/-! ### C4: rwlock unlock, writer path -/

/-- C4: when `has_writer` is set, `uth_rwlock_unlock` pops the next writer; if
one exists it is the only restartee and `has_writer` stays set; otherwise
`has_writer` is cleared and the whole reader queue becomes the restart set,
with `nr_readers` incremented once per drained reader. -/
theorem C4_rwlock_unlock_writer_spec (rwl : uth_rwlock)
    (h : rwl.has_writer = true) :
    (∀ w ws, rwl.writers = w :: ws →
      uth_rwlock_unlock rwl = ({ rwl with writers := ws }, [w])) ∧
    (rwl.writers = [] →
      uth_rwlock_unlock rwl =
        ({ rwl with
           has_writer := false,
           readers := [],
           nr_readers := rwl.nr_readers + rwl.readers.length },
         rwl.readers)) := by
  constructor
  · intro w ws hw
    simp [uth_rwlock_unlock, h, __rw_unlock_writer, hw,
      uth_default_sync_get_next]
  · intro hw
    simp [uth_rwlock_unlock, h, __rw_unlock_writer, hw,
      uth_default_sync_get_next, rw_drain_readers_eq]

/-- C4 witness: with a queued writer 8, ownership transfers to 8 alone; with
no queued writer, readers 2 and 3 are both restarted and counted. -/
theorem C4_rwlock_unlock_writer_spec_witness :
    (uth_rwlock.mk 0 true [2, 3] [8] true).has_writer = true ∧
    uth_rwlock_unlock ⟨0, true, [2, 3], [8], true⟩ =
      (⟨0, true, [2, 3], [], true⟩, [8]) ∧
    uth_rwlock_unlock ⟨0, true, [2, 3], [], true⟩ =
      (⟨2, false, [], [], true⟩, [2, 3]) := by
  refine ⟨rfl, ?_, ?_⟩
  · exact (C4_rwlock_unlock_writer_spec ⟨0, true, [2, 3], [8], true⟩ rfl).1 8 [] rfl
  · exact (C4_rwlock_unlock_writer_spec ⟨0, true, [2, 3], [], true⟩ rfl).2 rfl

/-! ### C5: rwlock invariants over all operation sequences -/

/-- One atomic (spinlocked) state change of a rwlock, by any caller.  The
constructors cover the fast and blocking paths of `uth_rwlock_rdlock` and
`uth_rwlock_wrlock` (the yield callbacks enqueue the caller under the same
lock hold), both try variants, and `uth_rwlock_unlock` by a current holder
(`has_writer` set for a writer, `nr_readers > 0` for a reader). -/
inductive rw_step : uth_rwlock → uth_rwlock → Prop
  | rdlock_fast (rwl : uth_rwlock) : rwl.has_writer = false →
      rw_step rwl { rwl with nr_readers := rwl.nr_readers + 1 }
  | rdlock_block (rwl : uth_rwlock) (t : Nat) : rwl.has_writer = true →
      rw_step rwl { rwl with readers := uth_default_sync_enqueue t rwl.readers }
  | try_rdlock (rwl : uth_rwlock) : rwl.once_ran = true →
      rw_step rwl (uth_rwlock_try_rdlock rwl).1
  | wrlock_fast (rwl : uth_rwlock) : rwl.has_writer = false →
      rwl.nr_readers = 0 →
      rw_step rwl { rwl with has_writer := true }
  | wrlock_block (rwl : uth_rwlock) (t : Nat) :
      rwl.has_writer = true ∨ rwl.nr_readers ≠ 0 →
      rw_step rwl { rwl with writers := uth_default_sync_enqueue t rwl.writers }
  | try_wrlock (rwl : uth_rwlock) : rwl.once_ran = true →
      rw_step rwl (uth_rwlock_try_wrlock rwl).1
  | unlock (rwl : uth_rwlock) : rwl.has_writer = true ∨ 0 < rwl.nr_readers →
      rw_step rwl (uth_rwlock_unlock rwl).1

/-- The quiescent-point rwlock invariant. -/
def rw_inv (rwl : uth_rwlock) : Prop :=
  (rwl.has_writer = true → rwl.nr_readers = 0) ∧
  (rwl.has_writer = false → rwl.readers = [])

theorem rw_inv_step {r r' : uth_rwlock} (hs : rw_step r r') (hi : rw_inv r) :
    rw_inv r' := by
  obtain ⟨nr, hwb, rds, wrs, oc⟩ := r
  obtain ⟨h1, h2⟩ := hi
  simp only at h1 h2
  cases hs with
  | rdlock_fast hw =>
    simp only at hw
    subst hw
    exact ⟨fun hw' => by simp at hw', fun _ => h2 rfl⟩
  | rdlock_block t hw =>
    simp only at hw
    subst hw
    exact ⟨fun _ => h1 rfl, fun hw' => by simp at hw'⟩
  | try_rdlock ho =>
    simp only at ho
    subst ho
    have hro : rw_run_once ⟨nr, hwb, rds, wrs, true⟩ = ⟨nr, hwb, rds, wrs, true⟩ := by
      simp [rw_run_once]
    cases hwb with
    | true =>
      simp only [uth_rwlock_try_rdlock, hro]
      exact ⟨fun _ => h1 rfl, fun hw' => by simp at hw'⟩
    | false =>
      simp only [uth_rwlock_try_rdlock, hro]
      exact ⟨fun hw' => by simp at hw', fun _ => h2 rfl⟩
  | wrlock_fast hw hnr =>
    simp only at hw hnr
    subst hw hnr
    exact ⟨fun _ => rfl, fun hw' => by simp at hw'⟩
  | wrlock_block t hcond =>
    exact ⟨h1, h2⟩
  | try_wrlock ho =>
    simp only at ho
    subst ho
    have hro : rw_run_once ⟨nr, hwb, rds, wrs, true⟩ = ⟨nr, hwb, rds, wrs, true⟩ := by
      simp [rw_run_once]
    by_cases hc : ¬ hwb = true ∧ nr = 0
    · simp only [uth_rwlock_try_wrlock, hro, if_pos hc]
      exact ⟨fun _ => hc.2, fun hw' => by simp at hw'⟩
    · simp only [uth_rwlock_try_wrlock, hro, if_neg hc]
      exact ⟨h1, h2⟩
  | unlock hcond =>
    simp only at hcond
    cases hwb with
    | true =>
      have hnr : nr = 0 := h1 rfl
      subst hnr
      rcases hw : wrs with _ | ⟨w, ws⟩
      · simp only [uth_rwlock_unlock, __rw_unlock_writer, hw,
          uth_default_sync_get_next, rw_drain_readers_eq]
        exact ⟨fun hw' => by simp at hw', fun _ => rfl⟩
      · simp only [uth_rwlock_unlock, __rw_unlock_writer, hw,
          uth_default_sync_get_next]
        exact ⟨fun _ => rfl, fun hw' => by simp at hw'⟩
    | false =>
      have hrds : rds = [] := h2 rfl
      subst hrds
      have hnr : 0 < nr := by
        rcases hcond with hc | hc
        · exact absurd hc (by simp)
        · exact hc
      by_cases hz : nr - 1 = 0
      · rcases hw : wrs with _ | ⟨w, ws⟩
        · simp only [uth_rwlock_unlock, __rw_unlock_reader, hw, hz,
            uth_default_sync_get_next, if_true, if_pos, Bool.false_eq_true,
            if_false]
          exact ⟨fun hw' => by simp at hw', fun _ => rfl⟩
        · simp only [uth_rwlock_unlock, __rw_unlock_reader, hw, hz,
            uth_default_sync_get_next, Bool.false_eq_true, if_false, if_pos]
          exact ⟨fun _ => rfl, fun hw' => by simp at hw'⟩
      · simp only [uth_rwlock_unlock, __rw_unlock_reader, hz,
          Bool.false_eq_true, if_false, if_neg hz]
        exact ⟨fun hw' => by simp at hw', fun _ => rfl⟩

/-- C5: every rwlock state reachable from `uth_rwlock_init` by any sequence of
rdlock / tryrdlock / wrlock / trywrlock / unlock operations satisfies
`has_writer → nr_readers == 0` and `¬has_writer → the reader queue is
empty`. -/
theorem C5_rwlock_invariant (rwl : uth_rwlock)
    (h : Relation.ReflTransGen rw_step uth_rwlock_init rwl) :
    (rwl.has_writer = true → rwl.nr_readers = 0) ∧
    (rwl.has_writer = false → rwl.readers = []) := by
  have : rw_inv rwl := by
    induction h with
    | refl => exact ⟨fun _ => rfl, fun _ => rfl⟩
    | tail hab hbc ih => exact rw_inv_step hbc ih
  exact this

/-- C5 witness: a concrete history (writer fast-path acquire, reader 3 blocks
behind the writer, writer unlock drains the reader) ending in a state with one
active reader. -/
theorem C5_rwlock_invariant_witness :
    Relation.ReflTransGen rw_step uth_rwlock_init ⟨1, false, [], [], true⟩ ∧
    ((uth_rwlock.mk 1 false [] [] true).has_writer = true →
      (uth_rwlock.mk 1 false [] [] true).nr_readers = 0) ∧
    ((uth_rwlock.mk 1 false [] [] true).has_writer = false →
      (uth_rwlock.mk 1 false [] [] true).readers = []) := by
  have s1 : rw_step uth_rwlock_init ⟨0, true, [], [], true⟩ := by
    have := rw_step.wrlock_fast uth_rwlock_init rfl rfl
    simpa [uth_rwlock_init] using this
  have s2 : rw_step (uth_rwlock.mk 0 true [] [] true) ⟨0, true, [3], [], true⟩ := by
    have := rw_step.rdlock_block ⟨0, true, [], [], true⟩ 3 rfl
    simpa [uth_default_sync_enqueue] using this
  have s3 : rw_step (uth_rwlock.mk 0 true [3] [] true) ⟨1, false, [], [], true⟩ := by
    have := rw_step.unlock ⟨0, true, [3], [], true⟩ (Or.inl rfl)
    simpa [uth_rwlock_unlock, __rw_unlock_writer, uth_default_sync_get_next,
      rw_drain_readers] using this
  have hchain : Relation.ReflTransGen rw_step uth_rwlock_init
      ⟨1, false, [], [], true⟩ :=
    Relation.ReflTransGen.tail
      (Relation.ReflTransGen.tail (Relation.ReflTransGen.single s1) s2) s3
  exact ⟨hchain, C5_rwlock_invariant _ hchain⟩

/-! ### C9: failed try operations leave the state untouched -/

/-- C9: for every initialized primitive, a failed non-blocking try —
`uth_semaphore_trydown`, `uth_rwlock_try_rdlock` or `uth_rwlock_try_wrlock`
returning false — leaves the whole primitive state (count, nr_readers,
has_writer and all wait queues) exactly as it was. -/
theorem C9_try_fail_frame :
    (∀ sem : uth_semaphore, sem.once_ran = true →
      (uth_semaphore_trydown sem).2 = false →
      (uth_semaphore_trydown sem).1 = sem) ∧
    (∀ rwl : uth_rwlock, rwl.once_ran = true →
      (uth_rwlock_try_rdlock rwl).2 = false →
      (uth_rwlock_try_rdlock rwl).1 = rwl) ∧
    (∀ rwl : uth_rwlock, rwl.once_ran = true →
      (uth_rwlock_try_wrlock rwl).2 = false →
      (uth_rwlock_try_wrlock rwl).1 = rwl) := by
  refine ⟨?_, ?_, ?_⟩
  · intro sem h hf
    have hro : sem_run_once sem = sem := by simp [sem_run_once, h]
    by_cases hc : 0 < (sem_run_once sem).count
    · rw [uth_semaphore_trydown_pos hc] at hf
      simp at hf
    · rw [uth_semaphore_trydown_zero hc]
      exact hro
  · intro rwl h hf
    have hro : rw_run_once rwl = rwl := by simp [rw_run_once, h]
    by_cases hc : rwl.has_writer = true
    · simp [uth_rwlock_try_rdlock, hro, hc]
    · simp [uth_rwlock_try_rdlock, hro, hc] at hf
  · intro rwl h hf
    have hro : rw_run_once rwl = rwl := by simp [rw_run_once, h]
    by_cases hc : rwl.has_writer = false ∧ rwl.nr_readers = 0
    · simp [uth_rwlock_try_wrlock, hro, hc.1, hc.2] at hf
    · rcases not_and_or.mp hc with hb | hn
      · have hb' : rwl.has_writer = true := by
          cases hw : rwl.has_writer
          · exact absurd hw hb
          · rfl
        simp [uth_rwlock_try_wrlock, hro, hb']
      · simp [uth_rwlock_try_wrlock, hro, hn]

/-- C9 witness: concrete failed tries — trydown on an empty semaphore,
tryrdlock against a held writer, trywrlock against an active reader. -/
theorem C9_try_fail_frame_witness :
    ((uth_semaphore.mk 0 [] true).once_ran = true ∧
      (uth_semaphore_trydown ⟨0, [], true⟩).2 = false ∧
      (uth_semaphore_trydown ⟨0, [], true⟩).1 = ⟨0, [], true⟩) ∧
    ((uth_rwlock.mk 0 true [] [] true).once_ran = true ∧
      (uth_rwlock_try_rdlock ⟨0, true, [], [], true⟩).2 = false ∧
      (uth_rwlock_try_rdlock ⟨0, true, [], [], true⟩).1 = ⟨0, true, [], [], true⟩) ∧
    ((uth_rwlock.mk 1 false [] [] true).once_ran = true ∧
      (uth_rwlock_try_wrlock ⟨1, false, [], [], true⟩).2 = false ∧
      (uth_rwlock_try_wrlock ⟨1, false, [], [], true⟩).1 = ⟨1, false, [], [], true⟩) := by
  refine ⟨⟨rfl, rfl, ?_⟩, ⟨rfl, rfl, ?_⟩, ⟨rfl, rfl, ?_⟩⟩
  · exact C9_try_fail_frame.1 ⟨0, [], true⟩ rfl rfl
  · exact C9_try_fail_frame.2.1 ⟨0, true, [], [], true⟩ rfl rfl
  · exact C9_try_fail_frame.2.2 ⟨1, false, [], [], true⟩ rfl rfl

/-! ### Recursive mutexes -/

/-- `struct uth_recurse_mutex`: embedded mutex, `lockholder` (a thread handle
or none), recursion `count`, once-control. -/
structure uth_recurse_mutex where
  mtx : uth_semaphore
  lockholder : Option Nat
  count : Nat
  once_ran : Bool
deriving DecidableEq, Repr

/-- `__uth_recurse_mutex_init`: manually init the embedded mutex and mark its
once-control ran; no holder; zero count. -/
def __uth_recurse_mutex_init (r : uth_recurse_mutex) : uth_recurse_mutex :=
  { r with
    mtx := { __uth_mutex_init r.mtx with once_ran := true },
    lockholder := none,
    count := 0 }

/-- `parlib_run_once(&r_mtx->once_ctl, __uth_recurse_mutex_init, r_mtx)`. -/
def rmtx_run_once (r : uth_recurse_mutex) : uth_recurse_mutex :=
  if r.once_ran then r else { __uth_recurse_mutex_init r with once_ran := true }

/-- `uth_recurse_mutex_init`. -/
def uth_recurse_mutex_init : uth_recurse_mutex :=
  { mtx := uth_mutex_init, lockholder := none, count := 0, once_ran := true }

/-- `uth_recurse_mutex_timed_lock` for calling thread `t`: if `t` already
holds it, bump the count; otherwise take the embedded mutex (possibly timing
out, see `uth_semaphore_timed_down`) and on success become the holder with
count 1; on timeout return false having touched neither `lockholder` nor
`count`. -/
def uth_recurse_mutex_timed_lock (t : Nat) (r : uth_recurse_mutex)
    (timeoutFires : Bool) : Option (uth_recurse_mutex × Bool) :=
  let r := rmtx_run_once r
  if r.lockholder = some t then some ({ r with count := r.count + 1 }, true)
  else
    match uth_mutex_timed_lock r.mtx timeoutFires with
    | none => none
    | some (m, false) => some ({ r with mtx := m }, false)
    | some (m, true) =>
      some ({ r with mtx := m, lockholder := some t, count := 1 }, true)

/-- `uth_recurse_mutex_unlock`: decrement the count; when it reaches zero,
clear the holder and release the embedded mutex (which may wake a waiter). -/
def uth_recurse_mutex_unlock (r : uth_recurse_mutex) :
    uth_recurse_mutex × Option Nat :=
  let r := { r with count := r.count - 1 }
  if r.count = 0 then
    let p := uth_mutex_unlock r.mtx
    ({ r with mtx := p.1, lockholder := none }, p.2)
  else (r, none)

/-- `k` successive `uth_recurse_mutex_lock` calls by thread `t`
(`uth_recurse_mutex_lock` is `timed_lock` with a NULL timeout, which never
fires); `none` if any of them would block or fail. -/
def rlockN (t : Nat) : Nat → uth_recurse_mutex → Option uth_recurse_mutex
  | 0, r => some r
  | Nat.succ k, r =>
    match uth_recurse_mutex_timed_lock t r false with
    | some (r', true) => rlockN t k r'
    | _ => none

/-- `j` successive `uth_recurse_mutex_unlock` calls (states only). -/
def runlockN : Nat → uth_recurse_mutex → uth_recurse_mutex
  | 0, r => r
  | Nat.succ j, r => runlockN j (uth_recurse_mutex_unlock r).1

/-- The state of a recursive mutex held by thread `t` at depth `k`: embedded
mutex taken (count 0), holder `t`, recursion count `k`. -/
def rmtx_locked (t k : Nat) : uth_recurse_mutex :=
  { mtx := { count := 0, sync_obj := [], once_ran := true },
    lockholder := some t, count := k, once_ran := true }

theorem rlock_step_held (t c : Nat) :
    uth_recurse_mutex_timed_lock t (rmtx_locked t c) false =
      some (rmtx_locked t (c + 1), true) := by
  simp [uth_recurse_mutex_timed_lock, rmtx_run_once, rmtx_locked]

theorem rlock_step_first (t : Nat) :
    uth_recurse_mutex_timed_lock t uth_recurse_mutex_init false =
      some (rmtx_locked t 1, true) := by
  simp [uth_recurse_mutex_timed_lock, rmtx_run_once, uth_recurse_mutex_init,
    uth_mutex_timed_lock, mtx_run_once, uth_mutex_init,
    uth_semaphore_timed_down, sem_run_once, rmtx_locked]

theorem rlockN_held (t : Nat) (k c : Nat) :
    rlockN t k (rmtx_locked t c) = some (rmtx_locked t (c + k)) := by
  induction k generalizing c with
  | zero => simp [rlockN]
  | succ k ih =>
    rw [rlockN, rlock_step_held]
    show rlockN t k (rmtx_locked t (c + 1)) = some (rmtx_locked t (c + (k + 1)))
    rw [ih]
    congr 2
    omega

theorem runlock_step_deep (t c : Nat) (hc : 2 ≤ c) :
    uth_recurse_mutex_unlock (rmtx_locked t c) = (rmtx_locked t (c - 1), none) := by
  have hne : ¬ c - 1 = 0 := by omega
  simp [uth_recurse_mutex_unlock, rmtx_locked, hne]

theorem runlock_step_last (t : Nat) :
    uth_recurse_mutex_unlock (rmtx_locked t 1) = (uth_recurse_mutex_init, none) := by
  simp [uth_recurse_mutex_unlock, rmtx_locked, uth_mutex_unlock,
    uth_semaphore_up, sem_run_once, uth_default_sync_get_next,
    uth_recurse_mutex_init, uth_mutex_init]

theorem runlockN_inter (t : Nat) (j k : Nat) (h : j < k) :
    runlockN j (rmtx_locked t k) = rmtx_locked t (k - j) := by
  induction j generalizing k with
  | zero => simp [runlockN]
  | succ j ih =>
    have hk2 : 2 ≤ k := by omega
    rw [runlockN, runlock_step_deep t k hk2, ih (k - 1) (by omega)]
    congr 1
    omega

theorem runlockN_full (t : Nat) (k : Nat) (h : 1 ≤ k) :
    runlockN k (rmtx_locked t k) = uth_recurse_mutex_init := by
  induction k with
  | zero => omega
  | succ k ih =>
    rcases Nat.eq_or_lt_of_le h with h1 | h1
    · rw [← h1]
      rw [runlockN, runlock_step_last, runlockN]
    · have hk1 : 1 ≤ k := by omega
      rw [runlockN, runlock_step_deep t (k + 1) (by omega)]
      simpa using ih hk1

/-! ### C8: recursive mutex accounting -/

/-- C8: starting from a fresh recursive mutex, `k ≥ 1` lock calls by thread
`t` all succeed and leave `t` the holder at depth `k` with the embedded mutex
taken; after `j < k` unlocks `t` is still the holder with the count
decremented to `k - j`; after the `k`-th unlock the state is exactly the
initial one (`owner == none`, `count == 0`, embedded mutex free); and a timed
lock whose embedded mutex acquisition times out returns false leaving the
whole recursive mutex (owner and count included) unchanged. -/
theorem C8_recurse_mutex_accounting (t k : Nat) (hk : 1 ≤ k) :
    rlockN t k uth_recurse_mutex_init = some (rmtx_locked t k) ∧
    (∀ j, j < k →
      (runlockN j (rmtx_locked t k)).lockholder = some t ∧
      (runlockN j (rmtx_locked t k)).count = k - j) ∧
    runlockN k (rmtx_locked t k) = uth_recurse_mutex_init ∧
    uth_recurse_mutex_init.lockholder = none ∧
    uth_recurse_mutex_init.count = 0 ∧
    (∀ r : uth_recurse_mutex, ∀ u : Nat, r.once_ran = true →
      r.mtx.once_ran = true → ¬ r.lockholder = some u → r.mtx.count = 0 →
      uth_recurse_mutex_timed_lock u r true = some (r, false)) := by
  refine ⟨?_, ?_, runlockN_full t k hk, rfl, rfl, ?_⟩
  · obtain ⟨k', rfl⟩ : ∃ k', k = k' + 1 := ⟨k - 1, by omega⟩
    rw [rlockN, rlock_step_first]
    show rlockN t k' (rmtx_locked t 1) = some (rmtx_locked t (k' + 1))
    rw [rlockN_held]
    congr 2
    omega
  · intro j hj
    rw [runlockN_inter t j k hj]
    exact ⟨rfl, rfl⟩
  · intro r u ho hmo hno hmc
    obtain ⟨⟨mc, mq, mo⟩, lh, c, o⟩ := r
    simp only at ho hmo hno hmc
    subst ho hmo hmc
    simp [uth_recurse_mutex_timed_lock, rmtx_run_once, hno,
      uth_mutex_timed_lock, mtx_run_once, uth_semaphore_timed_down,
      sem_run_once]

/-- C8 witness: three locks and three unlocks by thread 5 round-trip the
state, and a timed lock by thread 5 against a mutex held by thread 9 times
out leaving the state untouched. -/
theorem C8_recurse_mutex_accounting_witness :
    1 ≤ 3 ∧
    rlockN 5 3 uth_recurse_mutex_init = some (rmtx_locked 5 3) ∧
    (runlockN 1 (rmtx_locked 5 3)).lockholder = some 5 ∧
    (runlockN 1 (rmtx_locked 5 3)).count = 3 - 1 ∧
    runlockN 3 (rmtx_locked 5 3) = uth_recurse_mutex_init ∧
    uth_recurse_mutex_timed_lock 5 (rmtx_locked 9 1) true =
      some (rmtx_locked 9 1, false) := by
  refine ⟨by decide, (C8_recurse_mutex_accounting 5 3 (by decide)).1,
    ((C8_recurse_mutex_accounting 5 3 (by decide)).2.1 1 (by decide)).1,
    ((C8_recurse_mutex_accounting 5 3 (by decide)).2.1 1 (by decide)).2,
    (C8_recurse_mutex_accounting 5 3 (by decide)).2.2.1,
    (C8_recurse_mutex_accounting 5 3 (by decide)).2.2.2.2.2 (rmtx_locked 9 1) 5
      rfl rfl (by decide) rfl⟩

/-! ### C3: condition-variable timed wait

`uth_cond_var_timed_wait` runs concurrently with signallers, broadcasters and
its own alarm handler.  We model one waiter thread `self` executing the
function body, composed with arbitrary interference, as a small-step system.
Each step is one atomic (spinlocked or single-location) action:

* `yield_cb`: the critical section from `spin_pdr_lock(&cv->lock)` through the
  yield callback's `spin_pdr_unlock(&cv->lock)` — arming the alarm when
  `abs_timeout` was given and enqueueing `self` on the cv queue all happen
  under one hold of the cv spinlock.
* `unlock_mtx`: the callback's final `uth_mutex_unlock(mtx)`.
* `resume`: the waiter resumes after being made runnable (by a waker or by
  the alarm), runs `unset_alarm` and computes `ret` from `blob->timed_out`.
* `relock_mtx`: the final `uth_mutex_lock(mtx)`, and the function returns.
* `signal` / `broadcast`: another thread runs `uth_cond_var_signal` /
  `uth_cond_var_broadcast` on this cv.
* `alarm`: the armed `timeout_handler` fires (at most once, and never after
  `unset_alarm`).
* `other_enq`: another waiter enqueues itself on this cv.
* `mtx_acquire` / `mtx_release`: another thread takes / releases the mutex
  while it is free. -/

inductive cv_wait_pc where
  | start
  | enq
  | rel
  | awake
  | returned
deriving DecidableEq, Repr

/-- Configuration of one `uth_cond_var_timed_wait(cv, mtx, abs_timeout)` call
by thread `self`: the waiter's program counter, the cv queue, who holds `mtx`
(`none` = free), whether the alarm is armed, the blob's `timed_out` flag,
whether a signal/broadcast woke `self`, and the `ret` value once computed. -/
structure cv_wait_config where
  pc : cv_wait_pc
  cvq : List Nat
  mtx_owner : Option Nat
  armed : Bool
  timed_out : Bool
  sig_woken : Bool
  retv : Option Bool
deriving DecidableEq, Repr

inductive cv_wait_step (self : Nat) (hasTimeout : Bool) :
    cv_wait_config → cv_wait_config → Prop
  | yield_cb (c : cv_wait_config) :
      c.pc = cv_wait_pc.start →
      cv_wait_step self hasTimeout c
        { c with
          pc := cv_wait_pc.enq,
          cvq := uth_default_sync_enqueue self c.cvq,
          armed := hasTimeout }
  | unlock_mtx (c : cv_wait_config) :
      c.pc = cv_wait_pc.enq →
      cv_wait_step self hasTimeout c
        { c with pc := cv_wait_pc.rel, mtx_owner := none }
  | resume (c : cv_wait_config) :
      c.pc = cv_wait_pc.rel →
      (c.sig_woken || c.timed_out) = true →
      cv_wait_step self hasTimeout c
        { c with
          pc := cv_wait_pc.awake,
          armed := false,
          retv := some (if hasTimeout then !c.timed_out else true) }
  | relock_mtx (c : cv_wait_config) :
      c.pc = cv_wait_pc.awake →
      c.mtx_owner = none →
      cv_wait_step self hasTimeout c
        { c with pc := cv_wait_pc.returned, mtx_owner := some self }
  | signal (c : cv_wait_config) (u : Nat) (q' : List Nat) :
      uth_default_sync_get_next c.cvq = (some u, q') →
      cv_wait_step self hasTimeout c
        { c with
          cvq := q',
          sig_woken := if u = self then true else c.sig_woken }
  | broadcast (c : cv_wait_config) :
      cv_wait_step self hasTimeout c
        { c with
          cvq := [],
          sig_woken := if self ∈ c.cvq then true else c.sig_woken }
  | alarm (c : cv_wait_config) :
      c.armed = true →
      cv_wait_step self hasTimeout c
        { c with
          cvq := (uth_default_sync_get_uth c.cvq self).2,
          armed := false,
          timed_out :=
            if (uth_default_sync_get_uth c.cvq self).1 then true
            else c.timed_out }
  | other_enq (c : cv_wait_config) (u : Nat) :
      ¬ u = self →
      cv_wait_step self hasTimeout c
        { c with cvq := uth_default_sync_enqueue u c.cvq }
  | mtx_acquire (c : cv_wait_config) (u : Nat) :
      ¬ u = self →
      c.mtx_owner = none →
      cv_wait_step self hasTimeout c { c with mtx_owner := some u }
  | mtx_release (c : cv_wait_config) (u : Nat) :
      ¬ u = self →
      c.mtx_owner = some u →
      cv_wait_step self hasTimeout c { c with mtx_owner := none }

/-- The precondition of `uth_cond_var_timed_wait`: the caller holds `mtx`, is
not queued anywhere, and its freshly stacked blob has `timed_out = FALSE`. -/
def cv_wait_start (self : Nat) (c : cv_wait_config) : Prop :=
  c.pc = cv_wait_pc.start ∧ c.mtx_owner = some self ∧ c.armed = false ∧
  c.timed_out = false ∧ c.sig_woken = false ∧ self ∉ c.cvq

/-- Inductive invariant for the waiter system. -/
def cv_wait_inv (self : Nat) (hasTimeout : Bool) (c : cv_wait_config) : Prop :=
  (c.pc = cv_wait_pc.start →
    c.mtx_owner = some self ∧ c.armed = false ∧ c.timed_out = false ∧
    c.sig_woken = false ∧ self ∉ c.cvq) ∧
  (c.pc = cv_wait_pc.enq → c.mtx_owner = some self) ∧
  ((c.pc = cv_wait_pc.enq ∨ c.pc = cv_wait_pc.rel) →
    ((c.sig_woken || c.timed_out) = true → self ∉ c.cvq) ∧
    ((c.sig_woken || c.timed_out) = false → c.cvq.count self = 1)) ∧
  (c.armed = true →
    (c.pc = cv_wait_pc.enq ∨ c.pc = cv_wait_pc.rel) ∧ hasTimeout = true ∧
    c.timed_out = false) ∧
  (c.timed_out = true → hasTimeout = true) ∧
  ¬ (c.sig_woken = true ∧ c.timed_out = true) ∧
  ((c.pc = cv_wait_pc.awake ∨ c.pc = cv_wait_pc.returned) →
    c.retv = some (if hasTimeout then !c.timed_out else true) ∧
    (c.sig_woken || c.timed_out) = true ∧ self ∉ c.cvq ∧ c.armed = false) ∧
  (c.pc = cv_wait_pc.returned → c.mtx_owner = some self)

theorem get_next_some {q : List Nat} {u : Nat} {q' : List Nat}
    (h : uth_default_sync_get_next q = (some u, q')) : q = u :: q' := by
  cases q with
  | nil => simp [uth_default_sync_get_next] at h
  | cons a rest =>
    simp only [uth_default_sync_get_next, Prod.mk.injEq, Option.some.injEq] at h
    rw [h.1, h.2]

theorem count_one_not_mem_erase {q : List Nat} {u : Nat}
    (h : q.count u = 1) : u ∉ q.erase u := by
  have := List.count_erase_self u q
  rw [h] at this
  exact List.not_mem_of_count_eq_zero this

theorem count_one_mem {q : List Nat} {u : Nat} (h : q.count u = 1) : u ∈ q := by
  by_contra hn
  rw [List.count_eq_zero_of_not_mem hn] at h
  exact absurd h (by decide)

theorem bool_or_false {a b : Bool} (h : (a || b) = false) :
    a = false ∧ b = false := by
  cases a <;> cases b <;> simp_all

theorem cv_head_self_key {self : Nat} {q' : List Nat} {sw tb : Bool}
    (h3 : ((sw || tb) = true → self ∉ self :: q') ∧
      ((sw || tb) = false → (self :: q').count self = 1)) :
    tb = false ∧ sw = false ∧ self ∉ q' := by
  by_cases hw : (sw || tb) = true
  · exact absurd (List.mem_cons_self self q') (h3.1 hw)
  · have hf : (sw || tb) = false := by
      cases h : (sw || tb)
      · rfl
      · exact absurd h hw
    obtain ⟨hsw, hto⟩ := bool_or_false hf
    have hc := h3.2 hf
    rw [List.count_cons_self] at hc
    have hz : q'.count self = 0 := by omega
    exact ⟨hto, hsw, List.not_mem_of_count_eq_zero hz⟩

theorem cv_wait_inv_start {self : Nat} {ht : Bool} {c : cv_wait_config}
    (h : cv_wait_start self c) : cv_wait_inv self ht c := by
  obtain ⟨h1, h2, h3, h4, h5, h6⟩ := h
  refine ⟨fun _ => ⟨h2, h3, h4, h5, h6⟩, ?_, ?_, ?_, ?_, ?_, ?_, ?_⟩
  · intro hx
    rw [h1] at hx
    exact nomatch hx
  · intro hx
    rcases hx with hx | hx <;> rw [h1] at hx <;> exact nomatch hx
  · intro hx
    rw [h3] at hx
    exact nomatch hx
  · intro hx
    rw [h4] at hx
    exact nomatch hx
  · rintro ⟨hx, -⟩
    rw [h5] at hx
    exact nomatch hx
  · intro hx
    rcases hx with hx | hx <;> rw [h1] at hx <;> exact nomatch hx
  · intro hx
    rw [h1] at hx
    exact nomatch hx

theorem cv_wait_inv_step {self : Nat} {ht : Bool} {c c' : cv_wait_config}
    (hs : cv_wait_step self ht c c') (hi : cv_wait_inv self ht c) :
    cv_wait_inv self ht c' := by
  unfold cv_wait_inv at hi ⊢
  obtain ⟨pc, cvq, mo, ar, tb, sw, rv⟩ := c
  obtain ⟨i1, i2, i3, i4, i5, i6, i7, i8⟩ := hi
  cases hs with
  | yield_cb h =>
    obtain ⟨hmo, har, hto, hsw, hnm⟩ := i1 h
    subst hmo har hto hsw
    refine ⟨fun hx => absurd hx (by simp), fun _ => rfl, ?_, ?_,
      fun hx => absurd hx (by simp), fun hx => absurd hx.1 (by simp), ?_,
      fun hx => absurd hx (by simp)⟩
    · intro _
      refine ⟨fun hx => absurd hx (by simp), fun _ => ?_⟩
      simp [uth_default_sync_enqueue, List.count_append,
        List.count_eq_zero_of_not_mem hnm]
    · intro hx
      exact ⟨Or.inl rfl, hx, rfl⟩
    · intro hx
      rcases hx with hx | hx <;> exact nomatch hx
  | unlock_mtx h =>
    refine ⟨fun hx => absurd hx (by simp), fun hx => absurd hx (by simp),
      ?_, ?_, i5, i6, ?_, fun hx => absurd hx (by simp)⟩
    · intro _
      exact i3 (Or.inl h)
    · intro hx
      obtain ⟨-, h2, h3⟩ := i4 hx
      exact ⟨Or.inr rfl, h2, h3⟩
    · intro hx
      rcases hx with hx | hx <;> exact nomatch hx
  | resume h hw =>
    refine ⟨fun hx => absurd hx (by simp), fun hx => absurd hx (by simp),
      ?_, fun hx => absurd hx (by simp), i5, i6, ?_,
      fun hx => absurd hx (by simp)⟩
    · intro hx
      rcases hx with hx | hx <;> exact nomatch hx
    · intro _
      exact ⟨rfl, hw, (i3 (Or.inr h)).1 hw, rfl⟩
  | relock_mtx h hmo =>
    refine ⟨fun hx => absurd hx (by simp), fun hx => absurd hx (by simp),
      ?_, ?_, i5, i6, ?_, fun _ => rfl⟩
    · intro hx
      rcases hx with hx | hx <;> exact nomatch hx
    · intro hx
      rcases (i4 hx).1 with h' | h' <;> rw [h] at h' <;> exact nomatch h'
    · intro _
      exact i7 (Or.inl h)
  | signal u q' hg =>
    have hq := get_next_some hg
    subst hq
    by_cases hu : u = self
    · subst hu
      have hrec : (if u = u then true else sw) = true := if_pos rfl
      rw [hrec]
      have hkey : tb = false ∧ sw = false ∧ u ∉ q' := by
        cases pc with
        | start => exact absurd (List.mem_cons_self u q') (i1 rfl).2.2.2.2
        | enq => exact cv_head_self_key (i3 (Or.inl rfl))
        | rel => exact cv_head_self_key (i3 (Or.inr rfl))
        | awake => exact absurd (List.mem_cons_self u q') (i7 (Or.inl rfl)).2.2.1
        | returned =>
          exact absurd (List.mem_cons_self u q') (i7 (Or.inr rfl)).2.2.1
      obtain ⟨hto, hsw, hq'⟩ := hkey
      refine ⟨?_, i2, ?_, i4, i5, ?_, ?_, i8⟩
      · intro hx
        exact absurd (List.mem_cons_self u q') (i1 hx).2.2.2.2
      · intro _
        exact ⟨fun _ => hq', fun hx => absurd hx (by simp)⟩
      · rintro ⟨-, hx⟩
        rw [hto] at hx
        exact nomatch hx
      · intro hx
        exact absurd (List.mem_cons_self u q') (i7 hx).2.2.1
    · have hrec : (if u = self then true else sw) = sw := if_neg hu
      rw [hrec]
      have hne : ¬ self = u := fun h => hu h.symm
      refine ⟨?_, i2, ?_, i4, i5, i6, ?_, i8⟩
      · intro hx
        obtain ⟨a1, a2, a3, a4, a5⟩ := i1 hx
        exact ⟨a1, a2, a3, a4, fun hm => a5 (List.mem_cons_of_mem u hm)⟩
      · intro hx
        obtain ⟨b1, b2⟩ := i3 hx
        refine ⟨fun hw hm => b1 hw (List.mem_cons_of_mem u hm), fun hw => ?_⟩
        have hc := b2 hw
        rw [List.count_cons_of_ne hne] at hc
        exact hc
      · intro hx
        obtain ⟨d1, d2, d3, d4⟩ := i7 hx
        exact ⟨d1, d2, fun hm => d3 (List.mem_cons_of_mem u hm), d4⟩
  | broadcast =>
    by_cases hm : self ∈ cvq
    · have hrec : (if self ∈ cvq then true else sw) = true := if_pos hm
      rw [hrec]
      have hto : tb = false := by
        cases pc with
        | start => exact absurd hm (i1 rfl).2.2.2.2
        | enq =>
          by_cases hw : (sw || tb) = true
          · exact absurd hm ((i3 (Or.inl rfl)).1 hw)
          · have hf : (sw || tb) = false := by
              cases hcb : (sw || tb)
              · rfl
              · exact absurd hcb hw
            exact (bool_or_false hf).2
        | rel =>
          by_cases hw : (sw || tb) = true
          · exact absurd hm ((i3 (Or.inr rfl)).1 hw)
          · have hf : (sw || tb) = false := by
              cases hcb : (sw || tb)
              · rfl
              · exact absurd hcb hw
            exact (bool_or_false hf).2
        | awake => exact absurd hm (i7 (Or.inl rfl)).2.2.1
        | returned => exact absurd hm (i7 (Or.inr rfl)).2.2.1
      refine ⟨?_, i2, ?_, i4, i5, ?_, ?_, i8⟩
      · intro hx
        exact absurd hm (i1 hx).2.2.2.2
      · intro _
        exact ⟨fun _ => by simp, fun hx => absurd hx (by simp)⟩
      · rintro ⟨-, hx⟩
        rw [hto] at hx
        exact nomatch hx
      · intro hx
        exact absurd hm (i7 hx).2.2.1
    · have hrec : (if self ∈ cvq then true else sw) = sw := if_neg hm
      rw [hrec]
      refine ⟨?_, i2, ?_, i4, i5, i6, ?_, i8⟩
      · intro hx
        obtain ⟨a1, a2, a3, a4, -⟩ := i1 hx
        exact ⟨a1, a2, a3, a4, by simp⟩
      · intro hx
        refine ⟨fun _ => by simp, fun hw => ?_⟩
        exact (hm (count_one_mem ((i3 hx).2 hw))).elim
      · intro hx
        obtain ⟨d1, d2, -, d4⟩ := i7 hx
        exact ⟨d1, d2, by simp, d4⟩
  | alarm har =>
    obtain ⟨hpcs, hht, hto⟩ := i4 har
    subst hht hto
    cases hfc : (uth_default_sync_get_uth cvq self).1 with
    | true =>
      have hmem : self ∈ cvq := (get_uth_fst_iff cvq self).mp hfc
      have h3 := i3 hpcs
      have hsw : sw = false := by
        cases hswc : sw with
        | false => rfl
        | true => exact absurd hmem (h3.1 (by simp [hswc]))
      subst hsw
      have hcount : cvq.count self = 1 := h3.2 rfl
      have hq' : self ∉ (uth_default_sync_get_uth cvq self).2 := by
        rw [get_uth_snd_erase]
        exact count_one_not_mem_erase hcount
      refine ⟨?_, i2, ?_, fun hx => absurd hx (by simp), fun _ => rfl,
        fun hx => absurd hx.1 (by simp), ?_, ?_⟩
      · intro hx
        rcases hpcs with h | h <;> rw [hx] at h <;> exact nomatch h
      · intro _
        exact ⟨fun _ => hq', fun hx => absurd hx (by simp)⟩
      · intro hx
        rcases hx with hx | hx <;> rcases hpcs with h | h <;> rw [hx] at h <;>
          exact nomatch h
      · intro hx
        rcases hpcs with h | h <;> rw [hx] at h <;> exact nomatch h
    | false =>
      have hnm : self ∉ cvq := by
        intro hmem
        rw [(get_uth_fst_iff cvq self).mpr hmem] at hfc
        exact nomatch hfc
      have hq_eq : uth_default_sync_get_uth cvq self = (false, cvq) :=
        get_uth_not_mem hnm
      rw [hq_eq]
      refine ⟨?_, i2, ?_, fun hx => absurd hx (by simp),
        fun hx => absurd hx (by simp), fun hx => absurd hx.2 (by simp),
        ?_, ?_⟩
      · intro hx
        rcases hpcs with h | h <;> rw [hx] at h <;> exact nomatch h
      · intro hx
        exact ⟨fun _ => hnm, fun hw => (i3 hx).2 hw⟩
      · intro hx
        rcases hx with hx | hx <;> rcases hpcs with h | h <;> rw [hx] at h <;>
          exact nomatch h
      · intro hx
        rcases hpcs with h | h <;> rw [hx] at h <;> exact nomatch h
  | other_enq u hu =>
    have hne : ¬ self = u := fun h => hu h.symm
    have hnot1 : self ∉ ([u] : List Nat) := by
      intro hm
      exact hne (List.mem_singleton.mp hm)
    have hext : self ∉ cvq → self ∉ cvq ++ [u] := by
      intro hnm hmem
      rcases List.mem_append.mp hmem with h | h
      · exact hnm h
      · exact hnot1 h
    have hcnt : (cvq ++ [u]).count self = cvq.count self := by
      rw [List.count_append, List.count_eq_zero_of_not_mem hnot1,
        Nat.add_zero]
    refine ⟨?_, i2, ?_, i4, i5, i6, ?_, i8⟩
    · intro hx
      obtain ⟨a1, a2, a3, a4, a5⟩ := i1 hx
      exact ⟨a1, a2, a3, a4, hext a5⟩
    · intro hx
      obtain ⟨b1, b2⟩ := i3 hx
      refine ⟨fun hw => hext (b1 hw), fun hw => ?_⟩
      have h1 : (cvq ++ [u]).count self = 1 := by
        rw [hcnt]
        exact b2 hw
      exact h1
    · intro hx
      obtain ⟨d1, d2, d3, d4⟩ := i7 hx
      exact ⟨d1, d2, hext d3, d4⟩
  | mtx_acquire u hu hmo =>
    subst hmo
    refine ⟨?_, ?_, i3, i4, i5, i6, i7, ?_⟩
    · intro hx
      exact absurd (i1 hx).1 (by simp)
    · intro hx
      exact absurd (i2 hx) (by simp)
    · intro hx
      exact absurd (i8 hx) (by simp)
  | mtx_release u hu hmo =>
    subst hmo
    refine ⟨?_, ?_, i3, i4, i5, i6, i7, ?_⟩
    · intro hx
      have h := (i1 hx).1
      rw [Option.some_inj] at h
      exact absurd h hu
    · intro hx
      have h := i2 hx
      rw [Option.some_inj] at h
      exact absurd h hu
    · intro hx
      have h := i8 hx
      rw [Option.some_inj] at h
      exact absurd h hu

theorem cv_wait_inv_reach {self : Nat} {ht : Bool} {c0 c : cv_wait_config}
    (h0 : cv_wait_start self c0)
    (hr : Relation.ReflTransGen (cv_wait_step self ht) c0 c) :
    cv_wait_inv self ht c := by
  induction hr with
  | refl => exact cv_wait_inv_start h0
  | tail hab hbc ih => exact cv_wait_inv_step hbc ih

/-- C3: from any start configuration where the caller holds `mtx`
(`cv_wait_start`), along every interleaving with signallers, broadcasters,
other waiters, other mutex users, and the alarm handler: (1) whenever the call
has returned, the caller holds `mtx` again and the returned value is `true`
iff it was woken by a signal/broadcast and `false` iff it timed out; and
(2) the enqueue is atomic with the mutex release — at every point after the
enqueue where the waiter has not yet been woken (in particular, the whole time
between the mutex release and the wake), the waiter is on the cv's queue, so
no wakeup can be lost. -/
theorem C3_cond_var_timed_wait_spec (self : Nat) (ht : Bool)
    (c0 c : cv_wait_config) (h0 : cv_wait_start self c0)
    (hr : Relation.ReflTransGen (cv_wait_step self ht) c0 c) :
    (c.pc = cv_wait_pc.returned →
      c.mtx_owner = some self ∧
      (c.retv = some true ↔ c.sig_woken = true) ∧
      (c.retv = some false ↔ c.timed_out = true)) ∧
    ((c.pc = cv_wait_pc.enq ∨ c.pc = cv_wait_pc.rel) →
      (c.sig_woken || c.timed_out) = false → self ∈ c.cvq) := by
  have hinv := cv_wait_inv_reach h0 hr
  unfold cv_wait_inv at hinv
  obtain ⟨i1, i2, i3, i4, i5, i6, i7, i8⟩ := hinv
  constructor
  · intro hpc
    obtain ⟨hretv, hwk, -, -⟩ := i7 (Or.inr hpc)
    have hboth : (c.retv = some true ↔ c.sig_woken = true) ∧
        (c.retv = some false ↔ c.timed_out = true) := by
      cases htc : c.timed_out with
      | false =>
        have hsw : c.sig_woken = true := by
          rw [htc] at hwk
          simpa using hwk
        rw [hretv, htc, hsw]
        cases ht <;> simp
      | true =>
        have hsw : c.sig_woken = false := by
          cases hs : c.sig_woken with
          | false => rfl
          | true => exact absurd ⟨hs, htc⟩ i6
        have hht : ht = true := i5 htc
        rw [hretv, htc, hsw, hht]
        simp
    exact ⟨i8 hpc, hboth.1, hboth.2⟩
  · intro hpc hwk
    exact count_one_mem ((i3 hpc).2 hwk)

/-- The initial configuration of the C3 witness run: thread 7 holds the
mutex, empty cv queue, fresh blob. -/
def cv_wait_witness_c0 : cv_wait_config :=
  ⟨cv_wait_pc.start, [], some 7, false, false, false, none⟩

/-- The final configuration of the C3 witness run: returned, holding the
mutex again, signalled, returning true. -/
def cv_wait_witness_cf : cv_wait_config :=
  ⟨cv_wait_pc.returned, [], some 7, false, false, true, some true⟩

/-- C3 witness: a concrete complete run with a timeout armed — enqueue and
mutex release, a signal that pops thread 7, resume, and mutex reacquisition —
after which the claim's conclusion holds at the final configuration. -/
theorem C3_cond_var_timed_wait_spec_witness :
    cv_wait_start 7 cv_wait_witness_c0 ∧
    Relation.ReflTransGen (cv_wait_step 7 true) cv_wait_witness_c0
      cv_wait_witness_cf ∧
    (cv_wait_witness_cf.mtx_owner = some 7 ∧
      (cv_wait_witness_cf.retv = some true ↔
        cv_wait_witness_cf.sig_woken = true) ∧
      (cv_wait_witness_cf.retv = some false ↔
        cv_wait_witness_cf.timed_out = true)) := by
  have h0 : cv_wait_start 7 cv_wait_witness_c0 := by
    unfold cv_wait_start cv_wait_witness_c0
    exact ⟨rfl, rfl, rfl, rfl, rfl, by simp⟩
  have s1 : cv_wait_step 7 true cv_wait_witness_c0
      ⟨cv_wait_pc.enq, [7], some 7, true, false, false, none⟩ :=
    cv_wait_step.yield_cb _ rfl
  have s2 : cv_wait_step 7 true
      ⟨cv_wait_pc.enq, [7], some 7, true, false, false, none⟩
      ⟨cv_wait_pc.rel, [7], none, true, false, false, none⟩ :=
    cv_wait_step.unlock_mtx _ rfl
  have s3 : cv_wait_step 7 true
      ⟨cv_wait_pc.rel, [7], none, true, false, false, none⟩
      ⟨cv_wait_pc.rel, [], none, true, false, true, none⟩ :=
    cv_wait_step.signal _ 7 [] rfl
  have s4 : cv_wait_step 7 true
      ⟨cv_wait_pc.rel, [], none, true, false, true, none⟩
      ⟨cv_wait_pc.awake, [], none, false, false, true, some true⟩ :=
    cv_wait_step.resume _ rfl rfl
  have s5 : cv_wait_step 7 true
      ⟨cv_wait_pc.awake, [], none, false, false, true, some true⟩
      cv_wait_witness_cf :=
    cv_wait_step.relock_mtx _ rfl rfl
  have hchain : Relation.ReflTransGen (cv_wait_step 7 true) cv_wait_witness_c0
      cv_wait_witness_cf :=
    Relation.ReflTransGen.tail
      (Relation.ReflTransGen.tail
        (Relation.ReflTransGen.tail
          (Relation.ReflTransGen.tail (Relation.ReflTransGen.single s1) s2)
          s3)
        s4)
      s5
  exact ⟨h0, hchain,
    (C3_cond_var_timed_wait_spec 7 true cv_wait_witness_c0 cv_wait_witness_cf
      h0 hchain).1 rfl⟩
